import Mathlib

/-!
Shallow embedding of the ThreadPool repository (src/ThreadPool.cpp) and
verification of behavioural claims about it.

The C++ source consists of a fixed-size thread pool:
  - struct ThreadManager (lines 73-101): a per-worker task queue
    (functionsQueue), an availability flag (free), an id, a mutex, and a
    condition variable; its service loop is ThreadManager::execute
    (lines 86-99).
  - class ThreadPool (lines 39-102): a vector of ThreadManager pointers;
    its constructor (lines 43-49) and the dispatch operation
    ThreadPool::evaluate (lines 52-68).
  - demo glue: myFunc_1..myFunc_4 (lines 104-119), the funcs table
    (lines 130-135), evalStruct (lines 121-127) and main (lines 167-193).

Machine integers are modelled as Int (all demo values are tiny, far from
any overflow boundary).  C++ integer division truncates toward zero, which
is Int.tdiv in Lean.  Caller-owned result slots (evalStruct.result and
evalStruct.readyFlag) are modelled as a list of EvalSlot records indexed by
the slot number a task writes to.

Concurrency is modelled at two granularities:
  - a coarse sequential transition system (PoolOp / applyOp / reach) in
    which each lock-protected critical section is one atomic step, used for
    functional-correctness and invariant claims; and
  - fine-grained micro-step machines (workerStep for the worker service
    loop, raceStep for two concurrent dispatchers) whose steps mirror the
    individual statements of the source, used for the concurrency claims,
    in particular the fact that ThreadPool::evaluate reads the free flag
    at line 55 BEFORE acquiring the worker mutex at line 56.
-/

/-- Caller-owned evaluation slot: the result variable and ready flag the
task lambda writes through references (evalStruct.result / readyFlag). -/
structure EvalSlot where
  result : Int
  ready : Bool
deriving DecidableEq

instance : Inhabited EvalSlot := ⟨⟨0, false⟩⟩

/-- A task as built by ThreadPool::evaluate (lines 59-62): the function
pointer, the two captured parameters, and the index of the caller-owned
slot whose result/ready fields the closure writes. -/
structure PoolTask where
  f : Int → Int → Int
  param1 : Int
  param2 : Int
  slot : Nat

/-- ThreadManager state (lines 73-84): the task queue, the availability
flag and the worker ordinal.  The mutex and condition variable have no
state of their own in the coarse model; the fine-grained worker model
below carries an explicit lockHeld field. -/
structure ThreadManager where
  functionsQueue : List PoolTask
  free : Bool
  m_id : Nat

instance : Inhabited ThreadManager := ⟨⟨[], true, 0⟩⟩

/-- ThreadManager constructor (line 81): free = true, empty queue. -/
def ThreadManager.construct (id : Nat) : ThreadManager := ⟨[], true, id⟩

/-- ThreadPool state (lines 69-71). -/
structure ThreadPool where
  m_nThreads : Int
  m_vpThreads : List ThreadManager

/-- The worker allocation loop of the constructor (lines 46-48): one
ThreadManager pushed per index i in 0..nThreads-1; the loop performs no
iterations when the count is not positive.  List.range nIn.toNat gives
exactly the indices the loop pushes. -/
def ThreadPool.allocWorkers (nIn : Int) : List ThreadManager :=
  (List.range nIn.toNat).map ThreadManager.construct

/-- ThreadPool constructor (lines 43-49), including the
m_vpThreads.reserve(m_nThreads) call of line 45.  reserve takes a
size_t, so a NEGATIVE int count converts to a value near 2^64 that
exceeds the vector's max_size and reserve throws std::length_error:
construction fails and no pool object is created (none).  For every
count >= 0 reserve succeeds and the code performs no further
validation: the allocation loop runs nIn times and a pool object is
produced - in particular, for count 0 a zero-worker pool is created
silently. -/
def ThreadPool.construct (nIn : Int) : Option ThreadPool :=
  if nIn < 0 then none
  else some ⟨nIn, ThreadPool.allocWorkers nIn⟩

/-- Effect of the lambda pushed at lines 59-62 on the caller slots:
slot t.slot receives result = f(param1, param2) and ready = true. -/
def runTaskL (t : PoolTask) (slots : List EvalSlot) : List EvalSlot :=
  slots.set t.slot ⟨t.f t.param1 t.param2, true⟩

/-- The scan loop of ThreadPool::evaluate (lines 54-66), recursing over
the worker vector in ordinal order (the constructor establishes that the
vector holds exactly m_nThreads workers, so the indexed loop visits the
list elements in order).  For the first worker with free = true it sets
free = false, appends the task to that worker queue, and stops (break at
line 64); the result Bool is the scheduled variable. -/
def evaluateGo : List ThreadManager → PoolTask → Bool × List ThreadManager
  | [], _ => (false, [])
  | w :: ws, t =>
    if w.free then
      (true, { w with free := false, functionsQueue := w.functionsQueue ++ [t] } :: ws)
    else
      let r := evaluateGo ws t
      (r.1, w :: r.2)

/-- ThreadPool::evaluate (lines 52-68) in the coarse model: the whole
dispatch call as one atomic step (faithful when no other thread
interferes; the fine-grained raceStep model below exposes the unlocked
read at line 55). -/
def ThreadPool.evaluate (p : ThreadPool) (t : PoolTask) : Bool × ThreadPool :=
  let r := evaluateGo p.m_vpThreads t
  (r.1, { p with m_vpThreads := r.2 })

/-- One full iteration of ThreadManager::execute (lines 88-98) with a
non-empty queue, as one atomic step: execute the front task (line 95 runs
f while the element is still at the front, line 94), pop it (line 96),
set free = true (line 97).  On an empty queue the worker blocks in the
condition wait (lines 89-91): no state change. -/
def ThreadManager.serve (w : ThreadManager) (slots : List EvalSlot) :
    ThreadManager × List EvalSlot :=
  match w.functionsQueue with
  | [] => (w, slots)
  | t :: rest => ({ w with functionsQueue := rest, free := true }, runTaskL t slots)

/-- Operations of the coarse transition system: a dispatch call with some
task, or one service-loop iteration of worker i. -/
inductive PoolOp where
  | dispatch (t : PoolTask)
  | serve (i : Nat)

/-- Apply one operation to the system state (pool, caller slots). -/
def applyOp (s : ThreadPool × List EvalSlot) : PoolOp → ThreadPool × List EvalSlot
  | PoolOp.dispatch t => ((s.1.evaluate t).2, s.2)
  | PoolOp.serve i =>
    match s.1.m_vpThreads.get? i with
    | none => s
    | some w =>
      let ws := ThreadManager.serve w s.2
      ({ s.1 with m_vpThreads := s.1.m_vpThreads.set i ws.1 }, ws.2)

/-- State reached from a freshly constructed pool and initial slots by a
sequence of operations.  For every count >= 0 the start state is exactly
the pool ThreadPool.construct yields; for a negative count construction
throws and no run exists at all, and the start state degenerates to a
zero-worker pool (ThreadPool.allocWorkers gives []), on which every
operation is a no-op. -/
def reach (nIn : Int) (slots : List EvalSlot) (ops : List PoolOp) :
    ThreadPool × List EvalSlot :=
  ops.foldl applyOp (⟨nIn, ThreadPool.allocWorkers nIn⟩, slots)

/-!
Fine-grained model of one iteration of the worker service loop
ThreadManager::execute (lines 86-99).  Each micro-step is one statement of
the source; pc records the next statement to run:
  pc 0: line 88  acquire the queue mutex
  pc 1: lines 89-91  emptiness check / condition wait (blocks if empty)
  pc 2: line 94  read the front of the queue into the local f
  pc 3: line 95  invoke the task body f() (writes the caller slot)
  pc 4: line 96  pop the queue
  pc 5: line 97  set free = true
  pc 6: line 98  end of iteration: the unique_lock is destroyed, the
        mutex is released, control returns to pc 0
The lockHeld field tracks whether the unique_lock of line 88 is held.
-/

/-- Micro-state of one worker running ThreadManager::execute together
with the caller slots its tasks write. -/
structure WorkerMicro where
  lockHeld : Bool
  queue : List PoolTask
  free : Bool
  reg : Option PoolTask
  pc : Nat
  slots : List EvalSlot

/-- One micro-step of ThreadManager::execute; see the pc table above. -/
def workerStep (s : WorkerMicro) : WorkerMicro :=
  match s.pc with
  | 0 => { s with lockHeld := true, pc := 1 }
  | 1 => if s.queue.isEmpty then s else { s with pc := 2 }
  | 2 => { s with reg := s.queue.head?, pc := 3 }
  | 3 =>
    match s.reg with
    | some t => { s with slots := runTaskL t s.slots, pc := 4 }
    | none => { s with pc := 4 }
  | 4 => { s with queue := s.queue.tail, pc := 5 }
  | 5 => { s with free := true, pc := 6 }
  | _ => { s with lockHeld := false, pc := 0 }

/-- Micro-state of a worker iteration started at the top of the loop
(lock not yet taken, nothing executed) with queue ts, free = false and
caller slots sl. -/
def workerIter (ts : List PoolTask) (sl : List EvalSlot) : Nat → WorkerMicro :=
  fun k => workerStep^[k] ⟨false, ts, false, none, 0, sl⟩

/-!
Fine-grained model of two threads concurrently calling
ThreadPool::evaluate on the same pool, both currently scanning the same
worker.  The crucial feature of the source is that the availability check
at line 55 (if (m_vpThreads.at(i)->free)) happens BEFORE the unique_lock
at line 56 is acquired; only the flag flip, the queue push and the notify
(lines 57-63) are inside the critical section, and the flag is NOT
re-checked after the lock is taken.  A dispatcher is therefore a two-step
program: an unlocked read of free, then an atomic claim section.
Dispatcher pc: 0 = before the line-55 read; 1 = read saw free == true,
about to enter the locked region; 2 = claimed (enqueued, returned true);
9 = read saw free == false, moved past this worker.
The queue records which dispatcher pushed each task.
-/

/-- Shared worker state plus the program counters of two dispatchers. -/
structure RaceState where
  free : Bool
  queue : List Nat
  d1pc : Nat
  d2pc : Nat
deriving DecidableEq

/-- Scheduler choices: which dispatcher performs which part of
ThreadPool::evaluate next. -/
inductive DispStep where
  | read1
  | read2
  | claim1
  | claim2
deriving DecidableEq

/-- One interleaving step.  A read step is the unlocked test of line 55.
A claim step is the whole locked region, lines 56-64 (unique_lock; free =
false; scheduled = true; push; notify_one; break), which is atomic because
it holds the worker mutex; it is enabled only for a dispatcher whose
unlocked read already saw free == true, and it does not re-check the
flag, exactly as the source does not. -/
def raceStep (s : RaceState) : DispStep → RaceState
  | DispStep.read1 =>
    if s.d1pc = 0 then
      (if s.free then { s with d1pc := 1 } else { s with d1pc := 9 })
    else s
  | DispStep.read2 =>
    if s.d2pc = 0 then
      (if s.free then { s with d2pc := 1 } else { s with d2pc := 9 })
    else s
  | DispStep.claim1 =>
    if s.d1pc = 1 then { s with free := false, queue := s.queue ++ [1], d1pc := 2 }
    else s
  | DispStep.claim2 =>
    if s.d2pc = 1 then { s with free := false, queue := s.queue ++ [2], d2pc := 2 }
    else s

/-- Run an interleaving from the state where the worker is idle and free
and both dispatchers are at the line-55 read. -/
def raceRun (sched : List DispStep) : RaceState :=
  sched.foldl raceStep ⟨true, [], 0, 0⟩

/-!
The body of the task lambda (lines 59-62) as an ordered write trace, to
state that result is written strictly before ready is set.
-/

/-- A single write performed by the task lambda on its caller slot. -/
inductive SlotWrite where
  | writeResult (v : Int)
  | writeReady
deriving DecidableEq

/-- The write sequence of the lambda body (lines 60-61): first
result = f(param1, param2), then ready = true. -/
def taskBodyTrace (t : PoolTask) : List SlotWrite :=
  [SlotWrite.writeResult (t.f t.param1 t.param2), SlotWrite.writeReady]

/-- Apply one write to a slot. -/
def applyWrite (s : EvalSlot) : SlotWrite → EvalSlot
  | SlotWrite.writeResult v => { s with result := v }
  | SlotWrite.writeReady => { s with ready := true }

/-- Apply a list of writes in order. -/
def runWrites (s : EvalSlot) (ws : List SlotWrite) : EvalSlot :=
  ws.foldl applyWrite s

/-!
Demo glue from the source: the four sample functions (lines 104-119), the
funcs table (lines 130-135), the evaluation records of main
(lines 169-173), and the reference scenario of 11 tasks on 4 workers
(lines 175-190).  C++ division of ints truncates toward zero, which is
Int.tdiv (the demo only ever divides nonnegative values).
-/

/-- myFunc_1 (lines 104-107): addition. -/
def myFunc_1 (a b : Int) : Int := a + b

/-- myFunc_2 (lines 108-111): subtraction. -/
def myFunc_2 (a b : Int) : Int := a - b

/-- myFunc_3 (lines 112-115): multiplication. -/
def myFunc_3 (a b : Int) : Int := a * b

/-- myFunc_4 (lines 116-119): UNGUARDED division a / b.  C++ division
truncates toward zero, i.e. Int.tdiv; in C++ it is undefined behaviour
when b == 0, which the demo never triggers (claim C10). -/
def myFunc_4 (a b : Int) : Int := Int.tdiv a b

/-- The funcs table (lines 130-135), index order as in the source. -/
def funcs : List (Int → Int → Int) := [myFunc_1, myFunc_2, myFunc_3, myFunc_4]

/-- nEvaluations (line 33). -/
def nEvaluations : Nat := 11

/-- nThreads (line 34). -/
def nThreadsConst : Nat := 4

/-- evalStruct (lines 121-127). -/
structure evalStruct where
  param1 : Int
  param2 : Int
  result : Int
  readyFlag : Bool
  func : Int → Int → Int

instance : Inhabited evalStruct := ⟨⟨0, 0, 0, false, myFunc_1⟩⟩

/-- The initial evaluation records built by main (lines 171-173):
record i holds parameters (2*i, i), result 0, readyFlag false, and
function funcs[i % nFuncs] with nFuncs = 4. -/
def vEvalsInit : List evalStruct :=
  (List.range nEvaluations).map
    (fun (i : Nat) => ⟨2 * (i : Int), (i : Int), 0, false, funcs.getD (Nat.mod i 4) myFunc_1⟩)

/-- The task that main dispatches for record i (line 182): the record
function, its two parameters, writing back into slot i. -/
def demoTask (i : Nat) : PoolTask :=
  ⟨funcs.getD (Nat.mod i 4) myFunc_1, 2 * (i : Int), (i : Int), i⟩

/-- The caller slots at the start of the demo: 11 records, result 0 and
readyFlag false (line 172). -/
def demoSlots : List EvalSlot := List.replicate nEvaluations ⟨0, false⟩

/-- A schedule realising the demo run of main (lines 179-187) in the
coarse transition system: dispatch tasks 0-3 (claiming workers 0-3 in
ordinal order), let every worker drain, dispatch tasks 4-7, drain,
dispatch tasks 8-10, drain.  In this interleaving every dispatch finds a
free worker, so the busy-retry loop of main succeeds on the first try
each time. -/
def demoOps : List PoolOp :=
  ((List.range 4).map (fun i => PoolOp.dispatch (demoTask i))) ++
    ((List.range 4).map PoolOp.serve) ++
    ((List.range 4).map (fun i => PoolOp.dispatch (demoTask (4 + i)))) ++
    ((List.range 4).map PoolOp.serve) ++
    ((List.range 3).map (fun i => PoolOp.dispatch (demoTask (8 + i)))) ++
    ((List.range 3).map PoolOp.serve)

/-- Final system state of the demo run. -/
def demoFinal : ThreadPool × List EvalSlot := reach 4 demoSlots demoOps

/-- Per-worker invariant used for the reachability proof: the free flag
mirrors queue emptiness, and the queue never holds more than one task
(the pool only enqueues on a worker whose flag it just saw true). -/
def wInv (w : ThreadManager) : Prop :=
  (w.free = true ↔ w.functionsQueue = []) ∧ w.functionsQueue.length ≤ 1

/-- The invariant over all workers of a pool. -/
def poolInv (p : ThreadPool) : Prop := ∀ w ∈ p.m_vpThreads, wInv w

/-- Concrete sample task: myFunc_1 (addition) on 3 and 4, writing slot 0,
matching the completion-visibility example of the spec. -/
def tAdd34 : PoolTask := ⟨myFunc_1, 3, 4, 0⟩

/-- Concrete two-worker pool whose worker 0 is busy and worker 1 free. -/
def pWit : ThreadPool := ⟨2, [⟨[], false, 0⟩, ⟨[], true, 1⟩]⟩

/-- Concrete one-worker pool whose only worker is busy. -/
def busyPool : ThreadPool := ⟨1, [⟨[], false, 0⟩]⟩

/-!
Helper lemmas about the dispatch scan.
-/

/-- If every worker in the list is busy, the scan changes nothing and
reports failure. -/
theorem evaluateGo_all_busy (ws : List ThreadManager) (t : PoolTask)
    (h : ∀ w ∈ ws, w.free = false) : evaluateGo ws t = (false, ws) := by
  induction ws with
  | nil => rfl
  | cons w ws ih =>
    have hw : w.free = false := h w (List.mem_cons_self w ws)
    have hrest : ∀ x ∈ ws, x.free = false := fun x hx => h x (List.mem_cons_of_mem w hx)
    simp [evaluateGo, hw, ih hrest]

/-- The scan claims exactly the first free worker: with a busy prefix as,
a free worker w and an arbitrary suffix bs, it returns true and only w is
changed (flag flipped, task appended at the back of its queue). -/
theorem evaluateGo_first_free (as bs : List ThreadManager) (w : ThreadManager)
    (t : PoolTask) (hbusy : ∀ a ∈ as, a.free = false) (hfree : w.free = true) :
    evaluateGo (as ++ w :: bs) t =
      (true, as ++ { w with free := false,
                            functionsQueue := w.functionsQueue ++ [t] } :: bs) := by
  induction as with
  | nil => simp [evaluateGo, hfree]
  | cons a as ih =>
    have ha : a.free = false := hbusy a (List.mem_cons_self a as)
    have hrest : ∀ x ∈ as, x.free = false := fun x hx => hbusy x (List.mem_cons_of_mem a hx)
    simp [evaluateGo, ha, ih hrest]

/-- C2: for every pool state in which at least one worker has its flag
true, ThreadPool::evaluate scans workers in ascending ordinal order,
claims exactly the first free worker (flag to false, exactly the one task
appended to that worker's queue), leaves every other worker and the rest
of the pool untouched, and returns true.  The hypothesis decomposes the
worker vector as busy prefix ++ first free worker ++ rest, which is
precisely the ascending-scan condition; the conclusion pins the complete
post-state, so at most one worker is claimed per call. -/
theorem C2_dispatch_claims_first_free (p : ThreadPool) (t : PoolTask)
    (as bs : List ThreadManager) (w : ThreadManager)
    (hsplit : p.m_vpThreads = as ++ w :: bs)
    (hbusy : ∀ a ∈ as, a.free = false)
    (hfree : w.free = true) :
    (p.evaluate t).1 = true ∧
    (p.evaluate t).2.m_vpThreads =
      as ++ { w with free := false,
                      functionsQueue := w.functionsQueue ++ [t] } :: bs ∧
    (p.evaluate t).2.m_nThreads = p.m_nThreads := by
  unfold ThreadPool.evaluate
  rw [hsplit, evaluateGo_first_free as bs w t hbusy hfree]
  exact ⟨rfl, rfl, rfl⟩

/-- Witness for C2 at a concrete input: two workers, worker 0 busy,
worker 1 free; the dispatch claims worker 1 and returns true. -/
theorem C2_dispatch_claims_first_free_witness :
    (pWit.evaluate tAdd34).1 = true ∧
    (pWit.evaluate tAdd34).2.m_vpThreads =
      [⟨[], false, 0⟩, ⟨[tAdd34], false, 1⟩] := by
  have h := C2_dispatch_claims_first_free pWit tAdd34
    [⟨[], false, 0⟩] [] ⟨[], true, 1⟩ rfl
    (by intro a ha; rw [List.mem_singleton] at ha; subst ha; rfl) rfl
  exact ⟨h.1, h.2.1⟩

/-- C3: when every worker's flag is false at scan time, evaluate returns
false and the whole pool state is exactly what it was: the task is
retained nowhere, no queue, flag or other pool field changes (the caller
slots are not even touched by evaluate). -/
theorem C3_saturated_dispatch_noop (p : ThreadPool) (t : PoolTask)
    (hbusy : ∀ w ∈ p.m_vpThreads, w.free = false) :
    p.evaluate t = (false, p) := by
  unfold ThreadPool.evaluate
  rw [evaluateGo_all_busy p.m_vpThreads t hbusy]

/-- Witness for C3 at a concrete input: one busy worker, dispatch fails
and the pool is unchanged. -/
theorem C3_saturated_dispatch_noop_witness :
    busyPool.evaluate tAdd34 = (false, busyPool) :=
  C3_saturated_dispatch_noop busyPool tAdd34
    (fun w hw => by rcases List.mem_singleton.mp hw with rfl; rfl)

/-!
Invariant preservation for the coarse transition system.
-/

/-- Every worker the constructor loop allocates satisfies the invariant:
it starts free with an empty queue. -/
theorem poolInv_allocWorkers (nIn : Int) :
    poolInv ⟨nIn, ThreadPool.allocWorkers nIn⟩ := by
  intro w hw
  simp only [ThreadPool.allocWorkers, List.mem_map] at hw
  obtain ⟨j, _, rfl⟩ := hw
  exact ⟨by simp [ThreadManager.construct], by simp [ThreadManager.construct]⟩

/-- The dispatch scan preserves the per-worker invariant: the claimed
worker had an empty queue (its flag was true), so it ends with flag false
and a one-element queue. -/
theorem evaluateGo_preserves_wInv (ws : List ThreadManager) (t : PoolTask)
    (h : ∀ w ∈ ws, wInv w) : ∀ w ∈ (evaluateGo ws t).2, wInv w := by
  induction ws with
  | nil => intro w hw; exact absurd hw (by simp [evaluateGo])
  | cons a ws ih =>
    have ha : wInv a := h a (List.mem_cons_self a ws)
    have hrest : ∀ x ∈ ws, wInv x := fun x hx => h x (List.mem_cons_of_mem a hx)
    intro w hw
    by_cases hfree : a.free
    · rw [show evaluateGo (a :: ws) t =
          (true, { a with free := false,
                          functionsQueue := a.functionsQueue ++ [t] } :: ws) from by
            simp [evaluateGo, hfree]] at hw
      rcases List.mem_cons.mp hw with rfl | hmem
      · have hq : a.functionsQueue = [] := ha.1.mp hfree
        refine ⟨by simp [hq], by simp [hq]⟩
      · exact hrest w hmem
    · rw [show evaluateGo (a :: ws) t =
          ((evaluateGo ws t).1, a :: (evaluateGo ws t).2) from by
            simp [evaluateGo, hfree]] at hw
      rcases List.mem_cons.mp hw with rfl | hmem
      · exact ha
      · exact ih hrest w hmem

/-- One service-loop iteration preserves the per-worker invariant: by the
invariant the queue holds at most one task, so after executing and
popping it the queue is empty and the flag is true. -/
theorem serve_preserves_wInv (w : ThreadManager) (slots : List EvalSlot)
    (h : wInv w) : wInv (ThreadManager.serve w slots).1 := by
  rcases hq : w.functionsQueue with _ | ⟨t, rest⟩
  · simpa [ThreadManager.serve, hq] using h
  · have hrest : rest = [] := by
      have := h.2
      rw [hq] at this
      simpa using this
    subst hrest
    exact ⟨by simp [ThreadManager.serve, hq], by simp [ThreadManager.serve, hq]⟩

/-- Every operation of the coarse transition system preserves the
invariant on all workers. -/
theorem applyOp_preserves_poolInv (s : ThreadPool × List EvalSlot) (op : PoolOp)
    (h : poolInv s.1) : poolInv (applyOp s op).1 := by
  cases op with
  | dispatch t => exact evaluateGo_preserves_wInv s.1.m_vpThreads t h
  | serve i =>
    simp only [applyOp]
    rcases hget : s.1.m_vpThreads.get? i with _ | w
    · simpa [hget] using h
    · have hw : w ∈ s.1.m_vpThreads := List.get?_mem hget
      simp only [hget]
      intro x hx
      rcases List.mem_or_eq_of_mem_set hx with hmem | rfl
      · exact h x hmem
      · exact serve_preserves_wInv w s.2 (h w hw)

/-- A fold of operations preserves the invariant. -/
theorem foldl_applyOp_preserves_poolInv (ops : List PoolOp)
    (s : ThreadPool × List EvalSlot) (h : poolInv s.1) :
    poolInv (ops.foldl applyOp s).1 := by
  induction ops generalizing s with
  | nil => exact h
  | cons op ops ih => exact ih (applyOp s op) (applyOp_preserves_poolInv s op h)

/-- C5: in every state reachable by any sequence of pool operations
(construction, dispatch calls, worker service-loop iterations), each
worker's availability flag equals the emptiness of its queue.  In this
model each lock-protected critical section is one atomic step, so a task
is "currently executing" only inside a serve step and never in an
observable state; between steps the spec invariant reduces to free = true
iff the queue is empty, which is what this theorem states (as a decidable
Boolean over all workers, for every worker count, initial slot list and
operation sequence). -/
theorem C5_flag_iff_empty_queue (nIn : Int) (slots : List EvalSlot)
    (ops : List PoolOp) :
    ((reach nIn slots ops).1.m_vpThreads.all
      (fun w => w.free == w.functionsQueue.isEmpty)) = true := by
  have hinv : poolInv (reach nIn slots ops).1 :=
    foldl_applyOp_preserves_poolInv ops (⟨nIn, ThreadPool.allocWorkers nIn⟩, slots)
      (poolInv_allocWorkers nIn)
  rw [List.all_eq_true]
  intro w hw
  have h := (hinv w hw).1
  rw [beq_iff_eq]
  rcases hf : w.free
  · rcases hq : w.functionsQueue with _ | ⟨t, rest⟩
    · have hcontra := h.mpr hq
      rw [hf] at hcontra
      simp at hcontra
    · rfl
  · rw [h.mp hf]
    rfl

/-- C1: the check-then-flip-then-enqueue sequence of ThreadPool::evaluate
is NOT a single atomic critical section, because the availability check
at line 55 is performed before the unique_lock of line 56 is acquired and
the flag is not re-checked inside the locked region.  Consequently two
concurrent dispatchers CAN both claim the same free worker: in the
interleaving where both perform the line-55 read first (both see free ==
true) and then perform their locked flip-and-enqueue sections one after
the other, both reach the claimed state (pc 2, i.e. scheduled = true via
that worker) and the single worker's queue ends up holding both tasks.
This refutes the claim at a concrete input and exhibits the code bug;
the spec's required behaviour (read under the same critical section)
would have made the second claim impossible. -/
theorem C1_unlocked_check_allows_double_claim :
    (raceRun [DispStep.read1, DispStep.read2, DispStep.claim1, DispStep.claim2]).d1pc = 2 ∧
    (raceRun [DispStep.read1, DispStep.read2, DispStep.claim1, DispStep.claim2]).d2pc = 2 ∧
    (raceRun [DispStep.read1, DispStep.read2, DispStep.claim1, DispStep.claim2]).queue = [1, 2] := by
  decide

/-- C4: the task lambda (lines 59-62) writes result = f(param1, param2)
strictly before it sets ready = true: in its write trace the result write
is at position 0 and the ready write at position 1, after any prefix of
the trace in which ready has become true the result already equals
f(param1, param2) (given that the slot starts with ready = false, as in
main), and the completed trace leaves exactly (f(param1, param2), true)
in the slot. -/
theorem C4_result_written_before_ready (t : PoolTask) (s : EvalSlot)
    (hs : s.ready = false) :
    (taskBodyTrace t).get? 0 = some (SlotWrite.writeResult (t.f t.param1 t.param2)) ∧
    (taskBodyTrace t).get? 1 = some SlotWrite.writeReady ∧
    (∀ k, (runWrites s ((taskBodyTrace t).take k)).ready = true →
      (runWrites s ((taskBodyTrace t).take k)).result = t.f t.param1 t.param2) ∧
    runWrites s (taskBodyTrace t) = ⟨t.f t.param1 t.param2, true⟩ := by
  refine ⟨rfl, rfl, ?_, rfl⟩
  intro k hk
  rcases k with _ | _ | n
  · rw [show runWrites s ((taskBodyTrace t).take 0) = s from rfl] at hk
    exact absurd hk (by rw [hs]; simp)
  · rw [show (runWrites s ((taskBodyTrace t).take 1)).ready = s.ready from rfl] at hk
    exact absurd hk (by rw [hs]; simp)
  · rw [show List.take (n + 1 + 1) (taskBodyTrace t) = taskBodyTrace t from by
        simp [taskBodyTrace]]
    rfl

/-- Witness for C4 at the spec example: f(a,b) = a+b with a = 3, b = 4 on
a slot that starts not-ready; the completed task body leaves result 7 and
ready true. -/
theorem C4_result_written_before_ready_witness :
    EvalSlot.ready ⟨0, false⟩ = false ∧
    runWrites ⟨0, false⟩ (taskBodyTrace tAdd34) = ⟨7, true⟩ :=
  ⟨rfl, (C4_result_written_before_ready tAdd34 ⟨0, false⟩ rfl).2.2.2⟩

/-- Unfolding lemma: one more micro-step. -/
theorem workerIter_succ (ts : List PoolTask) (sl : List EvalSlot) (k : Nat) :
    workerIter ts sl (k + 1) = workerStep (workerIter ts sl k) :=
  Function.iterate_succ_apply' workerStep k _

/-- State after step 1 (mutex acquired, line 88). -/
theorem workerIter_state1 (t : PoolTask) (rest : List PoolTask) (sl : List EvalSlot) :
    workerIter (t :: rest) sl 1 = ⟨true, t :: rest, false, none, 1, sl⟩ := rfl

/-- State after step 2 (emptiness check passed, lines 89-91). -/
theorem workerIter_state2 (t : PoolTask) (rest : List PoolTask) (sl : List EvalSlot) :
    workerIter (t :: rest) sl 2 = ⟨true, t :: rest, false, none, 2, sl⟩ := by
  rw [show (2 : Nat) = 1 + 1 from rfl, workerIter_succ, workerIter_state1]
  rfl

/-- State after step 3 (front read into the local, line 94). -/
theorem workerIter_state3 (t : PoolTask) (rest : List PoolTask) (sl : List EvalSlot) :
    workerIter (t :: rest) sl 3 = ⟨true, t :: rest, false, some t, 3, sl⟩ := by
  rw [show (3 : Nat) = 2 + 1 from rfl, workerIter_succ, workerIter_state2]
  rfl

/-- State after step 4 (task body executed, line 95): the slot is
written, the task is still in the queue, the lock is still held and the
flag is still false. -/
theorem workerIter_state4 (t : PoolTask) (rest : List PoolTask) (sl : List EvalSlot) :
    workerIter (t :: rest) sl 4 = ⟨true, t :: rest, false, some t, 4, runTaskL t sl⟩ := by
  rw [show (4 : Nat) = 3 + 1 from rfl, workerIter_succ, workerIter_state3]
  rfl

/-- State after step 5 (queue popped, line 96). -/
theorem workerIter_state5 (t : PoolTask) (rest : List PoolTask) (sl : List EvalSlot) :
    workerIter (t :: rest) sl 5 = ⟨true, rest, false, some t, 5, runTaskL t sl⟩ := by
  rw [show (5 : Nat) = 4 + 1 from rfl, workerIter_succ, workerIter_state4]
  rfl

/-- State after step 6 (free set to true, line 97). -/
theorem workerIter_state6 (t : PoolTask) (rest : List PoolTask) (sl : List EvalSlot) :
    workerIter (t :: rest) sl 6 = ⟨true, rest, true, some t, 6, runTaskL t sl⟩ := by
  rw [show (6 : Nat) = 5 + 1 from rfl, workerIter_succ, workerIter_state5]
  rfl

/-- State after step 7 (end of iteration, the unique_lock is released,
line 98). -/
theorem workerIter_state7 (t : PoolTask) (rest : List PoolTask) (sl : List EvalSlot) :
    workerIter (t :: rest) sl 7 = ⟨false, rest, true, some t, 0, runTaskL t sl⟩ := by
  rw [show (7 : Nat) = 6 + 1 from rfl, workerIter_succ, workerIter_state6]
  rfl

set_option maxHeartbeats 1000000 in
/-- C6 counterexample: the worker does NOT release its queue lock before
or while executing the task body.  In the concrete iteration on the task
(myFunc_1, 3, 4, slot 0): at micro-step 3 the worker is about to invoke
f() (pc 3) and the unique_lock acquired at line 88 is still held; the
step that performs the execution (writing result 7 and ready true into
slot 0) completes with the lock still held, and the lock is released only
at the end of the iteration, after the pop and after free = true. -/
theorem C6_lock_held_during_execution_cex :
    (workerIter [tAdd34] [⟨0, false⟩] 3).pc = 3 ∧
    (workerIter [tAdd34] [⟨0, false⟩] 3).lockHeld = true ∧
    (workerIter [tAdd34] [⟨0, false⟩] 4).slots = [⟨7, true⟩] ∧
    (workerIter [tAdd34] [⟨0, false⟩] 4).lockHeld = true ∧
    (workerIter [tAdd34] [⟨0, false⟩] 7).lockHeld = false := by
  decide

set_option maxHeartbeats 1000000 in
/-- C6 amended: in every service-loop iteration (arbitrary front task t,
queue remainder and caller slots) the worker holds its queue lock while
the task body executes (the lock taken at line 88 is released only when
the iteration ends), and the availability flag is not set true until
after the task body completes: free is still false at the execution step
and at the pop step, and becomes true only at the step after the pop. -/
theorem C6_amended_lock_held_and_free_after_completion (t : PoolTask)
    (rest : List PoolTask) (sl : List EvalSlot) :
    (workerIter (t :: rest) sl 3).pc = 3 ∧
    (workerIter (t :: rest) sl 3).lockHeld = true ∧
    (workerIter (t :: rest) sl 4).slots = runTaskL t sl ∧
    (workerIter (t :: rest) sl 4).lockHeld = true ∧
    (workerIter (t :: rest) sl 3).free = false ∧
    (workerIter (t :: rest) sl 4).free = false ∧
    (workerIter (t :: rest) sl 5).free = false ∧
    (workerIter (t :: rest) sl 6).free = true ∧
    (workerIter (t :: rest) sl 6).lockHeld = true ∧
    (workerIter (t :: rest) sl 7).lockHeld = false := by
  rw [workerIter_state3, workerIter_state4, workerIter_state5, workerIter_state6,
    workerIter_state7]
  exact ⟨rfl, rfl, rfl, rfl, rfl, rfl, rfl, rfl, rfl, rfl⟩

set_option maxHeartbeats 1000000 in
/-- C7 counterexample: removal of the task from the queue does NOT happen
before its execution.  In the concrete iteration on the task (myFunc_1,
3, 4, slot 0): immediately after the execution micro-step the caller slot
already holds (7, true) while the queue still has length 1 (front() at
line 94 reads without removing and pop() at line 96 runs only after f()
at line 95); the queue only becomes empty at the following micro-step. -/
theorem C7_removal_after_execution_cex :
    (workerIter [tAdd34] [⟨0, false⟩] 4).slots = [⟨7, true⟩] ∧
    (workerIter [tAdd34] [⟨0, false⟩] 4).queue.length = 1 ∧
    (workerIter [tAdd34] [⟨0, false⟩] 5).queue.length = 0 := by
  decide

set_option maxHeartbeats 1000000 in
/-- C7 amended: in every service-loop iteration with a non-empty queue
the worker executes the FRONT (oldest, FIFO) task synchronously to
completion, then removes exactly that one task, then sets its flag true;
removal happens after the execution, not before (line 94 reads the front,
line 95 runs it, line 96 pops, line 97 sets free). -/
theorem C7_amended_front_executed_then_removed_then_free (t : PoolTask)
    (rest : List PoolTask) (sl : List EvalSlot) :
    (workerIter (t :: rest) sl 4).slots = runTaskL t sl ∧
    (workerIter (t :: rest) sl 4).queue = t :: rest ∧
    (workerIter (t :: rest) sl 5).queue = rest ∧
    (workerIter (t :: rest) sl 5).slots = runTaskL t sl ∧
    (workerIter (t :: rest) sl 5).free = false ∧
    (workerIter (t :: rest) sl 6).free = true := by
  rw [workerIter_state4, workerIter_state5, workerIter_state6]
  exact ⟨rfl, rfl, rfl, rfl, rfl, rfl⟩

set_option maxHeartbeats 1000000 in
/-- C8 counterexample: in the reference scenario the slot for i = 3 does
NOT use multiply and does not hold 18.  Record 3 uses funcs[3 % 4] =
funcs[3] = myFunc_4 (division), so its result is 6 / 3 = 2; multiply
(myFunc_3 = funcs[2]) is used by i = 2, whose result is 4 * 2 = 8. -/
theorem C8_slot3_is_divide_not_multiply_cex :
    (demoFinal.2.getD 3 default).result = 2 ∧
    ¬((demoFinal.2.getD 3 default).result = 18) ∧
    (demoFinal.2.getD 2 default).result = 8 := by
  decide

set_option maxHeartbeats 1000000 in
/-- C8 amended: in the reference scenario of 11 tasks with parameters
(2i, i) and functions funcs[i mod 4] dispatched to a pool of 4 workers,
after all workers drain every one of the 11 result slots has its ready
flag true and its result equal to the direct evaluation of its function
on its inputs; in particular the slot for i = 3 uses divide and holds
6 / 3 = 2 (multiply is used for i = 2 and i = 6 and i = 10). -/
theorem C8_amended_all_slots_ready_and_correct :
    demoFinal.2 =
      (List.range nEvaluations).map
        (fun (i : Nat) =>
          ⟨(funcs.getD (Nat.mod i 4) myFunc_1) (2 * (i : Int)) (i : Int), true⟩) ∧
    demoFinal.2.getD 3 default = ⟨2, true⟩ := by
  constructor
  · decide
  · decide

/-- C9 counterexample: constructing a pool with worker count 0 is NOT
reported and does NOT prevent the pool from being created: reserve(0) at
line 45 is harmless, the constructor performs no validation, its loop
never runs, and a pool object with an empty worker vector is silently
produced, on which every dispatch returns false. -/
theorem C9_zero_count_pool_created_cex :
    ThreadPool.construct 0 = some ⟨0, []⟩ ∧
    ((⟨0, []⟩ : ThreadPool).evaluate tAdd34).1 = false ∧
    (⟨0, []⟩ : ThreadPool).m_vpThreads.length = 0 :=
  ⟨rfl, rfl, rfl⟩

/-- C9 amended: a worker count of 0 is not rejected: no failure is
reported and a zero-worker pool is created silently (so every dispatch
on it fails).  A NEGATIVE worker count does make construction fail, but
only as an accident of the int-to-size_t conversion in the
reserve(m_nThreads) call of line 45 (the huge request makes reserve
throw std::length_error), not as an explicit validity check.  For every
workerCount >= 0, construction succeeds and allocates exactly
workerCount workers, each starting its service loop free with an empty
queue. -/
theorem C9_amended_reserve_throws_only_when_negative (nIn : Int) :
    (nIn < 0 → ThreadPool.construct nIn = none) ∧
    (0 ≤ nIn → ThreadPool.construct nIn = some ⟨nIn, ThreadPool.allocWorkers nIn⟩) ∧
    (ThreadPool.allocWorkers nIn).length = nIn.toNat ∧
    (∀ i : Nat, ((ThreadPool.allocWorkers nIn).getD i default).free = true ∧
      ((ThreadPool.allocWorkers nIn).getD i default).functionsQueue = []) := by
  refine ⟨?_, ?_, by simp [ThreadPool.allocWorkers], ?_⟩
  · intro hneg
    rw [ThreadPool.construct, if_pos hneg]
  · intro hpos
    rw [ThreadPool.construct, if_neg (by omega)]
  · intro i
    rcases hget : (ThreadPool.allocWorkers nIn).get? i with _ | w
    · rw [List.getD_eq_get?, hget]
      exact ⟨rfl, rfl⟩
    · have hw : w ∈ ThreadPool.allocWorkers nIn := List.get?_mem hget
      rw [List.getD_eq_get?, hget]
      simp only [ThreadPool.allocWorkers, List.mem_map] at hw
      obtain ⟨j, _, rfl⟩ := hw
      exact ⟨rfl, rfl⟩

/-- Witness for C9 amended at concrete inputs: count -5 makes
construction fail, counts 0 and 4 succeed, count 4 allocating exactly 4
workers. -/
theorem C9_amended_reserve_throws_only_when_negative_witness :
    ((-5 : Int) < 0) ∧ ThreadPool.construct (-5) = none ∧
    ((0 : Int) ≤ 0) ∧ ThreadPool.construct 0 = some ⟨0, ThreadPool.allocWorkers 0⟩ ∧
    ((0 : Int) ≤ 4) ∧ ThreadPool.construct 4 = some ⟨4, ThreadPool.allocWorkers 4⟩ ∧
    (ThreadPool.allocWorkers 4).length = (4 : Int).toNat :=
  ⟨by decide, (C9_amended_reserve_throws_only_when_negative (-5)).1 (by decide),
    by decide, (C9_amended_reserve_throws_only_when_negative 0).2.1 (by decide),
    by decide, (C9_amended_reserve_throws_only_when_negative 4).2.1 (by decide),
    (C9_amended_reserve_throws_only_when_negative 4).2.2.1⟩

/-- C10: the divide sample function myFunc_4 divides its first argument
by its second without any guard; in the demo driver the records that
carry myFunc_4 are exactly those with i mod 4 = 3, i.e. i = 3 and i = 7
among the 11 records, and their second parameter is i itself, which is
nonzero, so the division-by-zero branch is unreachable in every demo
evaluation. -/
theorem C10_divide_divisor_never_zero (i : Nat) (hlt : i < nEvaluations)
    (hdiv : Nat.mod i 4 = 3) :
    (i = 3 ∨ i = 7) ∧
    (vEvalsInit.getD i default).param2 = (i : Int) ∧
    (vEvalsInit.getD i default).param2 ≠ 0 := by
  have hlt11 : i < 11 := hlt
  interval_cases i <;> revert hdiv <;> decide

/-- Witness for C10 at i = 3: the record exists, carries divisor 3 which
is nonzero. -/
theorem C10_divide_divisor_never_zero_witness :
    3 < nEvaluations ∧ Nat.mod 3 4 = 3 ∧
    (vEvalsInit.getD 3 default).param2 ≠ 0 :=
  ⟨by decide, by decide,
    (C10_divide_divisor_never_zero 3 (by decide) (by decide)).2.2⟩
